import Mathlib

/-!
Verification of the Kaleidoscope lexer/parser (`toy.py`, a Python 3
translation of the LLVM Kaleidoscope tutorial front end).

The embedding below translates the source faithfully, including its slips:
* `ParseParenExpr` binds the parsed expression to the local `v` but then
  evaluates the undefined name `V` (`if not V: return None` / `return V`),
  so every invocation raises `NameError`; modeled as the `nameError` outcome.
* `ParseBinOpRHS` guards the recursive call's result with `if (RHS == 0)`,
  but failed sub-parses return `None`, and in Python `None == 0` is `False`
  (and AST objects do not compare equal to `0`), so the guard never fires
  and a failed right-hand side is wrapped into a `BinaryExprAST` as `None`.
* The comment loop in `gettok` exits only when the character is `'\n'`,
  `'\r'`, or `None`; at end of input `getchar()` returns the empty string
  `''`, which is none of these, so a final comment that reaches end of
  input without a newline loops forever; modeled as the `diverges` outcome.
* `float(NumStr)` raises `ValueError` when the accumulated `[0-9.]+` string
  has no digit or more than one dot; modeled as the `valueError` outcome.

Python floats are IEEE doubles; we model numeric payloads as exact
rationals (`ℚ`).  Every concrete value appearing in the claims is a small
integer, for which the decimal-to-double conversion is exact, so the model
agrees with the code on all values the theorems mention.
-/

namespace Kaleidoscope

/-! ### Character classification

The source classifies single characters with the regexes `\s`, `[a-zA-Z]`,
`[a-zA-Z0-9]`, `[0-9]` and the literal characters `.` and `#`.  We model the
ASCII behaviour of these classes (for `\s`, Python's `re` additionally
matches some characters above 127; all inputs in the claims are ASCII). -/

/-- Character class of `re.match("\s", c)` restricted to ASCII:
space, tab, newline, vertical tab, form feed, carriage return, and the
separator characters 28-31 that Python's unicode-aware `\s` also matches. -/
def isWS (c : Char) : Bool :=
  decide (c.toNat = 32 ∨ (9 ≤ c.toNat ∧ c.toNat ≤ 13) ∨ (28 ≤ c.toNat ∧ c.toNat ≤ 31))

/-- Character class of `re.match("[a-zA-Z]", c)`. -/
def isAlphaChar (c : Char) : Bool :=
  decide ((65 ≤ c.toNat ∧ c.toNat ≤ 90) ∨ (97 ≤ c.toNat ∧ c.toNat ≤ 122))

/-- Character class of `re.match("[0-9]", c)`. -/
def isDigitChar (c : Char) : Bool :=
  decide (48 ≤ c.toNat ∧ c.toNat ≤ 57)

/-- Character class of `re.match("[a-zA-Z0-9]", c)`. -/
def isAlnumChar (c : Char) : Bool :=
  isAlphaChar c || isDigitChar c

/-- Characters accumulated into a numeric literal:
`re.match("[0-9]", c) or c == '.'`. -/
def isNumChar (c : Char) : Bool :=
  isDigitChar c || decide (c.toNat = 46)

/-! ### Tokens

`gettok` returns one of the negative `Token` codes (`tok_eof`, `tok_def`,
`tok_extern`, `tok_identifier`, `tok_number`) or a one-character string.
The payloads live in the module globals `IdentifierStr` / `NumVal`, which we
carry in the lexer state, exactly as in the source. -/

/-- Discriminated token value returned by `gettok`. -/
inductive Tok where
  | eof
  | kDef
  | kExtern
  | identifier
  | number
  | char (c : Char)
  deriving DecidableEq

/-- Mutable module state of the lexer: the remaining character stream, plus
the globals `LastChar`, `IdentifierStr` and `NumVal`.  `lastChar = none`
models Python's `''` (what `sys.stdin.read(1)` yields at end of input). -/
structure LexState where
  input : List Char
  lastChar : Option Char
  identifierStr : List Char
  numVal : ℚ
  deriving DecidableEq

/-- Model of `getchar()`: one character from the stream, or `''` (`none`)
when no characters remain. -/
def getchar : List Char → Option Char × List Char
  | [] => (none, [])
  | c :: rest => (some c, rest)

/-- Model of the whitespace-skipping loop
`while (re.match("\s", LastChar)): LastChar = getchar()`.
Returns the new `LastChar` and remaining input. -/
def skipWS : Option Char → List Char → Option Char × List Char
  | none, inp => (none, inp)
  | some c, inp =>
    if isWS c then
      match inp with
      | [] => (none, [])
      | d :: rest => skipWS (some d) rest
    else (some c, inp)

/-- Value of a digit string, as accumulated left to right. -/
def digitsVal (l : List Char) : Nat :=
  l.foldl (fun a c => 10 * a + (c.toNat - 48)) 0

/-- Model of Python's `float(NumStr)` for a nonempty string over `[0-9.]`:
it succeeds exactly when the string has at least one digit and at most one
dot, and yields the exact decimal value; otherwise it raises `ValueError`
(modeled as `none`). -/
def pyFloat? (s : List Char) : Option ℚ :=
  if s.count '.' ≤ 1 ∧ s.any isDigitChar then
    let a := s.takeWhile (fun c => !(c = '.'))
    let b := (s.dropWhile (fun c => !(c = '.'))).drop 1
    some (mkRat (digitsVal (a ++ b)) (10 ^ b.length))
  else none

/-- Outcome of one `gettok()` call: a token with the updated lexer state, an
uncaught `ValueError` from `float`, or nontermination of the comment loop. -/
inductive LexResult where
  | ok (t : Tok) (s : LexState)
  | valueError
  | diverges
  deriving DecidableEq

/-- Model of `gettok()`, structurally recursive on an explicit bound.
The only recursion in the source is the tail call `return gettok()` after a
comment; each such hop consumes at least one input character, so the bound
`input.length + 1` supplied by `gettok` below always suffices and the
`0` case is never reached from `gettok`.

The comment loop `while True: LastChar = getchar(); if not (LastChar != None
and LastChar != '\n' and LastChar != '\r'): break` exits only on a newline:
at end of input `getchar()` returns `''`, which is not `None`, so the loop
never terminates — modeled by returning `.diverges` when no newline remains. -/
def gettokB : Nat → LexState → LexResult
  | 0, _ => .diverges
  | b + 1, s =>
    match skipWS s.lastChar s.input with
    | (none, inp) =>
      -- Check for end of file.  Don't eat the EOF.
      .ok .eof ⟨inp, none, s.identifierStr, s.numVal⟩
    | (some c, inp) =>
      if isAlphaChar c then
        -- identifier: [a-zA-Z][a-zA-Z0-9]*
        let idStr := c :: inp.takeWhile isAlnumChar
        let nxt := getchar (inp.dropWhile isAlnumChar)
        let s' : LexState := ⟨nxt.2, nxt.1, idStr, s.numVal⟩
        if idStr = ['d', 'e', 'f'] then .ok .kDef s'
        else if idStr = ['e', 'x', 't', 'e', 'r', 'n'] then .ok .kExtern s'
        else .ok .identifier s'
      else if isNumChar c then
        -- Number: [0-9.]+
        let numStr := c :: inp.takeWhile isNumChar
        let nxt := getchar (inp.dropWhile isNumChar)
        match pyFloat? numStr with
        | some v => .ok .number ⟨nxt.2, nxt.1, s.identifierStr, v⟩
        | none => .valueError
      else if c = '#' then
        -- Comment until end of line, then `return gettok()`.
        match inp.dropWhile (fun d => !(d = '\n' || d = '\r')) with
        | [] => .diverges
        | d :: rest => gettokB b ⟨rest, some d, s.identifierStr, s.numVal⟩
      else
        -- Otherwise, just return the character as its ascii value.
        let nxt := getchar inp
        .ok (.char c) ⟨nxt.2, nxt.1, s.identifierStr, s.numVal⟩

/-- Model of `gettok()`. -/
def gettok (s : LexState) : LexResult :=
  gettokB (s.input.length + 1) s

/-- Lexer state at module start: `LastChar = ' '`, `IdentifierStr = ""`,
`NumVal = 0.0`, with the given character stream pending. -/
def initLexState (input : List Char) : LexState :=
  ⟨input, some ' ', [], 0⟩

/-! ### Abstract syntax tree

One inductive covers the `ExprAST` subclasses.  `BinaryExprAST` stores `op`
as the token the parser captured (`BinOp = CurTok`, a one-character string
in Python) and allows `rhs` to be absent, because the `RHS == 0` slip in
`ParseBinOpRHS` lets a `None` right-hand side reach the constructor.  The
parser never passes `None` as `lhs`, so `lhs` is a plain node. -/

/-- Expression nodes: `NumberExprAST`, `VariableExprAST`, `BinaryExprAST`,
`CallExprAST`. -/
inductive ExprAST where
  | NumberExpr (val : ℚ)
  | VariableExpr (name : List Char)
  | BinaryExpr (op : Tok) (lhs : ExprAST) (rhs : Option ExprAST)
  | CallExpr (callee : List Char) (args : List ExprAST)

/-- `PrototypeAST`: function name and argument names. -/
structure PrototypeAST where
  name : List Char
  args : List (List Char)
  deriving DecidableEq

/-- `FunctionAST`: prototype plus body expression. -/
structure FunctionAST where
  proto : PrototypeAST
  body : ExprAST

/-! ### Parser state and result convention -/

/-- Global parser state: the lexer's module state plus the one-token
lookahead buffer `CurTok`. -/
structure PState where
  lex : LexState
  curTok : Tok

/-- Outcome of a parse routine: a returned value (with the updated global
state) or one of the uncaught-exception / nontermination outcomes, plus
`outOfFuel` for the structural-recursion bound (never the behaviour of the
source; theorems quantify over or instantiate the fuel). -/
inductive PResult (α : Type) where
  | ok (a : α) (s : PState)
  | nameError
  | valueError
  | diverges
  | outOfFuel

/-- Sequencing: run the continuation on a returned value, propagate
exceptions and nontermination (in Python, an uncaught exception unwinds
through every caller). -/
def PResult.bind {α β : Type} : PResult α → (α → PState → PResult β) → PResult β
  | .ok a s, k => k a s
  | .nameError, _ => .nameError
  | .valueError, _ => .valueError
  | .diverges, _ => .diverges
  | .outOfFuel, _ => .outOfFuel

/-- Model of `getNextToken()`: `CurTok = gettok()`. -/
def getNextToken (s : PState) : PResult Tok :=
  match gettok s.lex with
  | .ok t l => .ok t ⟨l, t⟩
  | .valueError => .valueError
  | .diverges => .diverges

/-- The `BinopPrecedence` table as installed by `main()`:
`'<' → 10`, `'+' → 20`, `'-' → 20`, `'*' → 40`; it is never mutated
afterwards. -/
def BinopPrecedence : Char → Option Int := fun c =>
  if c = '<' then some 10
  else if c = '+' then some 20
  else if c = '-' then some 20
  else if c = '*' then some 40
  else none

/-- Model of `GetTokPrecedence()`: `-1` unless `CurTok` is a one-character
string with a positive entry in the table. -/
def GetTokPrecedence (t : Tok) : Int :=
  match t with
  | .char c =>
    -- Make sure it's a declared binop.
    let tokPrec := (BinopPrecedence c).getD (-1)
    if tokPrec ≤ 0 then -1 else tokPrec
  | _ => -1

/-! ### Parse routines

All error helpers (`error`, `errorP`, `errorF`) print a diagnostic and
return `None`; we model the `None` return (`.ok none`).  The mutually
recursive routines are structurally recursive on a fuel argument; each
unfolding of the source's recursion or of one of its `while True` loops
consumes one unit. -/

/-- Model of `ParseNumberExpr()`: build the node from `NumVal`, advance. -/
def ParseNumberExpr (s : PState) : PResult (Option ExprAST) :=
  let result := ExprAST.NumberExpr s.lex.numVal
  (getNextToken s).bind fun _ s1 => .ok (some result) s1

mutual

/-- Model of `ParseExpression()`: a primary extended by `ParseBinOpRHS(0, LHS)`;
returns the falsy sentinel when the primary fails. -/
def ParseExpression : Nat → PState → PResult (Option ExprAST)
  | 0, _ => .outOfFuel
  | f + 1, s =>
    (ParsePrimary f s).bind fun lhsOpt s1 =>
      match lhsOpt with
      | none => .ok none s1
      | some lhs => ParseBinOpRHS f 0 lhs s1

/-- Model of `ParsePrimary()`: dispatch on `CurTok`; anything else reports
"unknown token when expecting an expression" and returns `None`. -/
def ParsePrimary : Nat → PState → PResult (Option ExprAST)
  | 0, _ => .outOfFuel
  | f + 1, s =>
    if s.curTok = .identifier then ParseIdentifierExpr f s
    else if s.curTok = .number then ParseNumberExpr s
    else if s.curTok = .char '(' then ParseParenExpr f s
    else .ok none s

/-- Model of `ParseIdentifierExpr()`: variable reference, or call with a
comma-separated argument list (the list loop is `ParseCallArgs`). -/
def ParseIdentifierExpr : Nat → PState → PResult (Option ExprAST)
  | 0, _ => .outOfFuel
  | f + 1, s =>
    let idName := s.lex.identifierStr
    (getNextToken s).bind fun _ s1 =>
      if s1.curTok ≠ .char '(' then
        -- Simple variable ref.
        .ok (some (.VariableExpr idName)) s1
      else
        (getNextToken s1).bind fun _ s2 =>
          if s2.curTok = .char ')' then
            -- Empty argument list: eat the ')'.
            (getNextToken s2).bind fun _ s3 => .ok (some (.CallExpr idName [])) s3
          else ParseCallArgs f idName [] s2

/-- Model of the `while True` argument loop inside `ParseIdentifierExpr`:
parse an expression, fail (`None`) if it fails, stop at `')'` (eating it
and returning the call), report "Expected ')' or ',' in argument list" on
any other token, else eat the `','` and continue. -/
def ParseCallArgs : Nat → List Char → List ExprAST → PState → PResult (Option ExprAST)
  | 0, _, _, _ => .outOfFuel
  | f + 1, idName, args, s =>
    (ParseExpression f s).bind fun argOpt s1 =>
      match argOpt with
      | none => .ok none s1
      | some arg =>
        if s1.curTok = .char ')' then
          (getNextToken s1).bind fun _ s2 =>
            .ok (some (.CallExpr idName (args ++ [arg]))) s2
        else if s1.curTok ≠ .char ',' then .ok none s1
        else (getNextToken s1).bind fun _ s2 => ParseCallArgs f idName (args ++ [arg]) s2

/-- Model of `ParseParenExpr()`: eats `'('` and parses an expression into
the local `v`, but the following line evaluates the never-assigned name `V`
(`if not V: return None`), so every invocation that reaches that line
raises `NameError`. -/
def ParseParenExpr : Nat → PState → PResult (Option ExprAST)
  | 0, _ => .outOfFuel
  | f + 1, s =>
    (getNextToken s).bind fun _ s1 =>
      (ParseExpression f s1).bind fun _v _s2 =>
        .nameError

/-- Model of `ParseBinOpRHS(ExprPrec, LHS)`, the precedence-climbing loop.
The source guards the recursive call's result with `if (RHS == 0): return 0`,
but a failed sub-parse returns `None` and in Python `None == 0` is `False`
(and an `ExprAST` object never equals `0`), so that guard never fires and
the loop merges a possibly-`None` right-hand side into `BinaryExprAST`. -/
def ParseBinOpRHS : Nat → Int → ExprAST → PState → PResult (Option ExprAST)
  | 0, _, _, _ => .outOfFuel
  | f + 1, exprPrec, lhs, s =>
    -- `TokPrec = GetTokPrecedence()`: return LHS if the pending operator
    -- binds less tightly than the current minimum.
    if GetTokPrecedence s.curTok < exprPrec then .ok (some lhs) s
    else
      -- Okay, we know this is a binop: `BinOp = CurTok`; eat it.
      (getNextToken s).bind fun _ s1 =>
        (ParsePrimary f s1).bind fun rhsOpt s2 =>
          match rhsOpt with
          | none => .ok none s2
          | some rhs =>
            -- `NextPrec = GetTokPrecedence()` at the new current token.
            if GetTokPrecedence s.curTok < GetTokPrecedence s2.curTok then
              (ParseBinOpRHS f (GetTokPrecedence s.curTok + 1) rhs s2).bind fun rhsOpt2 s3 =>
                -- `if (RHS == 0): return 0` never fires; merge and loop.
                ParseBinOpRHS f exprPrec (.BinaryExpr s.curTok lhs rhsOpt2) s3
            else
              -- Merge LHS/RHS and loop.
              ParseBinOpRHS f exprPrec (.BinaryExpr s.curTok lhs (some rhs)) s2

end

/-- Model of the parameter-collection loop in `ParsePrototype`:
`while (getNextToken() == tok_identifier): ArgNames.append(IdentifierStr)`. -/
def protoArgsLoop : Nat → List (List Char) → PState → PResult (List (List Char))
  | 0, _, _ => .outOfFuel
  | f + 1, acc, s =>
    (getNextToken s).bind fun t s1 =>
      if t = .identifier then protoArgsLoop f (acc ++ [s1.lex.identifierStr]) s1
      else .ok acc s1

/-- Model of `ParsePrototype()`: requires an identifier (else
"Expected function name in prototype"), then `'('`, collects parameter
identifiers, requires `')'`, eats it, and returns the prototype. -/
def ParsePrototype (f : Nat) (s : PState) : PResult (Option PrototypeAST) :=
  if s.curTok ≠ .identifier then .ok none s
  else
    let fnName := s.lex.identifierStr
    (getNextToken s).bind fun _ s1 =>
      if s1.curTok ≠ .char '(' then .ok none s1
      else
        (protoArgsLoop f [] s1).bind fun argNames s2 =>
          if s2.curTok ≠ .char ')' then .ok none s2
          else
            -- success: eat ')'.
            (getNextToken s2).bind fun _ s3 => .ok (some ⟨fnName, argNames⟩) s3

/-- Model of `ParseDefinition()`: eat `def`, parse a prototype and a body
expression, propagating `None` from either. -/
def ParseDefinition (f : Nat) (s : PState) : PResult (Option FunctionAST) :=
  (getNextToken s).bind fun _ s1 =>
    (ParsePrototype f s1).bind fun protoOpt s2 =>
      match protoOpt with
      | none => .ok none s2
      | some proto =>
        (ParseExpression f s2).bind fun eOpt s3 =>
          match eOpt with
          | some e => .ok (some ⟨proto, e⟩) s3
          | none => .ok none s3

/-- Model of `ParseTopLevelExpr()`: wrap an expression in an anonymous
(empty-named, parameterless) prototype. -/
def ParseTopLevelExpr (f : Nat) (s : PState) : PResult (Option FunctionAST) :=
  (ParseExpression f s).bind fun eOpt s1 =>
    match eOpt with
    | some e => .ok (some ⟨⟨[], []⟩, e⟩) s1
    | none => .ok none s1

/-- Model of `ParseExtern()`: eat `extern`, return `ParsePrototype()`. -/
def ParseExtern (f : Nat) (s : PState) : PResult (Option PrototypeAST) :=
  (getNextToken s).bind fun _ s1 => ParsePrototype f s1

/-! ### Top-level driver -/

/-- Model of `HandleDefinition()`: on failure, skip one token for error
recovery. -/
def HandleDefinition (f : Nat) (s : PState) : PResult Unit :=
  (ParseDefinition f s).bind fun r s1 =>
    match r with
    | some _ => .ok () s1
    | none => (getNextToken s1).bind fun _ s2 => .ok () s2

/-- Model of `HandleExtern()`: on failure, skip one token for error
recovery. -/
def HandleExtern (f : Nat) (s : PState) : PResult Unit :=
  (ParseExtern f s).bind fun r s1 =>
    match r with
    | some _ => .ok () s1
    | none => (getNextToken s1).bind fun _ s2 => .ok () s2

/-- Model of `HandleTopLevelExpression()`: on failure, skip one token for
error recovery. -/
def HandleTopLevelExpression (f : Nat) (s : PState) : PResult Unit :=
  (ParseTopLevelExpr f s).bind fun r s1 =>
    match r with
    | some _ => .ok () s1
    | none => (getNextToken s1).bind fun _ s2 => .ok () s2

/-- Outcome of running the driver loop: normal return (at end of input), an
uncaught exception, nontermination, or fuel exhaustion of the model. -/
inductive DriverResult where
  | finished (s : PState)
  | nameError
  | valueError
  | diverges
  | outOfFuel

/-- Model of `MainLoop()`: dispatch on `CurTok` until `tok_eof`. -/
def MainLoop : Nat → PState → DriverResult
  | 0, _ => .outOfFuel
  | f + 1, s =>
    if s.curTok = .eof then .finished s
    else
      let step : PResult Unit :=
        if s.curTok = .char ';' then (getNextToken s).bind fun _ s1 => .ok () s1
        else if s.curTok = .kDef then HandleDefinition f s
        else if s.curTok = .kExtern then HandleExtern f s
        else HandleTopLevelExpression f s
      match step with
      | .ok _ s1 => MainLoop f s1
      | .nameError => .nameError
      | .valueError => .valueError
      | .diverges => .diverges
      | .outOfFuel => .outOfFuel

/-! ### Entry points, as wired up by `main()` -/

/-- Prime `CurTok` from the fresh lexer state (the `getNextToken()` call in
`main`), then parse one expression via `ParseExpression`. -/
def runParseExpression (f : Nat) (input : List Char) : PResult (Option ExprAST) :=
  match gettok (initLexState input) with
  | .ok t l => ParseExpression f ⟨l, t⟩
  | .valueError => .valueError
  | .diverges => .diverges

/-- Model of `main()` after installing the precedence table: prime `CurTok`,
then run `MainLoop()`. -/
def runMain (f : Nat) (input : List Char) : DriverResult :=
  match gettok (initLexState input) with
  | .ok t l => MainLoop f ⟨l, t⟩
  | .valueError => .valueError
  | .diverges => .diverges

/-! ### The table-membership invariant (C8) -/

/-- A token that may legally become a `BinaryExprAST` operator: a
one-character token whose character is a key of the precedence table with a
positive binding power. -/
def opOK (t : Tok) : Prop :=
  ∃ c q, t = Tok.char c ∧ BinopPrecedence c = some q ∧ 0 < q

/-- Well-formedness of a parsed expression: every `BinaryExprAST` operator
anywhere in the tree satisfies `opOK` (its sub-trees recursively too, the
absent right-hand sides produced by the `RHS == 0` slip included). -/
inductive ExprOK : ExprAST → Prop where
  | num (v : ℚ) : ExprOK (.NumberExpr v)
  | var (n : List Char) : ExprOK (.VariableExpr n)
  | binNone (op : Tok) (l : ExprAST) : opOK op → ExprOK l →
      ExprOK (.BinaryExpr op l none)
  | binSome (op : Tok) (l r : ExprAST) : opOK op → ExprOK l → ExprOK r →
      ExprOK (.BinaryExpr op l (some r))
  | call (f : List Char) (args : List ExprAST) : (∀ a ∈ args, ExprOK a) →
      ExprOK (.CallExpr f args)

/-! ### Helper lemmas -/

/-- Inversion for `PResult.bind`: a successful sequence factors through a
successful first step. -/
theorem PResult.bind_ok {α β : Type} {r : PResult α} {k : α → PState → PResult β}
    {b : β} {s' : PState} (h : r.bind k = .ok b s') :
    ∃ a s1, r = .ok a s1 ∧ k a s1 = .ok b s' := by
  cases r with
  | ok a s1 => exact ⟨a, s1, rfl, h⟩
  | nameError => simp [PResult.bind] at h
  | valueError => simp [PResult.bind] at h
  | diverges => simp [PResult.bind] at h
  | outOfFuel => simp [PResult.bind] at h

/-- A numeric-literal character is not whitespace. -/
theorem isNumChar_not_ws {c : Char} (h : isNumChar c = true) : isWS c = false := by
  simp only [isNumChar, isDigitChar, isWS, Bool.or_eq_true, decide_eq_true_eq] at h
  simp only [isWS, decide_eq_false_iff_not]
  omega

/-- A numeric-literal character is not alphabetic. -/
theorem isNumChar_not_alpha {c : Char} (h : isNumChar c = true) : isAlphaChar c = false := by
  simp only [isNumChar, isDigitChar, Bool.or_eq_true, decide_eq_true_eq] at h
  simp only [isAlphaChar, decide_eq_false_iff_not]
  omega

/-- Skipping whitespace does nothing when the current character is not
whitespace. -/
theorem skipWS_not_ws {c : Char} (h : isWS c = false) (inp : List Char) :
    skipWS (some c) inp = (some c, inp) := by
  unfold skipWS
  simp [h]

/-! ### C1 — `ParseParenExpr` raises `NameError` (code bug)

The source (`toy.py` lines 206-214) stores the parsed expression in the
local `v` but then executes `if not V: return None` and `return V` with the
capital name `V`, which is never assigned anywhere in the module, so every
invocation that finishes the inner `ParseExpression` raises `NameError` —
it neither returns the inner expression on `"(1+2)"` nor reports
`"expected ')'"` and returns `None` on `"(1+2)"`'s truncation `"(1+2"`. -/

/-- C1: on both `"(1+2"` (the claim's unmatched-parenthesis example) and the
well-formed `"(1+2)"`, parsing aborts with an uncaught `NameError` from
`ParseParenExpr` instead of the claimed error-report-and-null or
return-inner-expression behaviours. -/
theorem parseParenExpr_nameError :
    runParseExpression 20 ['(', '1', '+', '2'] = .nameError ∧
    runParseExpression 20 ['(', '1', '+', '2', ')'] = .nameError :=
  ⟨rfl, rfl⟩

/-! ### C2 — failed recursive RHS is wrapped into a node (code bug)

On `"1+2*"`, the recursive `ParseBinOpRHS(tokPrec+1, right)` call fails
(its `ParsePrimary` hits end of input) and returns `None`; the guard
`if (RHS == 0): return 0` does not fire because `None == 0` is `False` in
Python, so the loop builds `BinaryExprAST('+', NumberLiteral(1), None)` and
returns it as a success instead of propagating the null sentinel. -/

/-- C2: parsing `"1+2*"` returns a successful `BinaryExpression` whose
right-hand side is the failed (`None`) sub-parse, rather than the null
sentinel the claim requires. -/
theorem parseBinOpRHS_wraps_failed_rhs :
    runParseExpression 20 ['1', '+', '2', '*'] =
      .ok (some (.BinaryExpr (.char '+') (.NumberExpr 1) none))
        ⟨⟨[], none, [], 2⟩, .eof⟩ :=
  rfl

/-! ### C4 — unterminated final comment loops forever (code bug)

The comment loop exits only when `LastChar` is `None`, `'\n'` or `'\r'`,
but at end of input `getchar()` returns `''` (not `None`), so on an input
whose final comment is not newline-terminated `gettok` never returns —
the claim promises the end-of-input token instead.  With a newline the
comment is skipped and end-of-input is reached as claimed. -/

/-- C4: a newline-terminated comment-only input lexes to the end-of-input
token with no intervening tokens, but on `"#c"` (final comment line not
terminated by a newline) the comment-discard loop never terminates. -/
theorem gettok_comment_eof_or_diverges :
    gettok (initLexState ['#', 'c', '\n']) = .ok .eof ⟨[], none, [], 0⟩ ∧
    gettok (initLexState ['#', 'c']) = .diverges :=
  ⟨rfl, rfl⟩

/-! ### C3 — the lexer can raise `ValueError` (claim corrected)

`gettok` accumulates any nonempty `[0-9.]+` string and hands it to
Python's `float`, which raises `ValueError` when the string contains no
digit or more than one dot (e.g. the input `"."` or `"1.2.3"`), so the
claim's "never fails" is too strong; the spec itself flags this float-parse
failure as an open question.  The corrected statement: a numeric
accumulation yields a number token exactly when it is a valid float literal
(at least one digit, at most one dot) and raises `ValueError` otherwise;
unrecognized characters still become single-character tokens. -/

/-- C3 counterexample: on the character sequence `"."`, `nextToken` does not
return a token — the accumulated numeric literal `"."` makes `float` raise
`ValueError`. -/
theorem gettok_lone_dot_valueError :
    gettok (initLexState ['.']) = .valueError :=
  rfl

/-- C3 (amended): when the current character starts a numeric literal, the
lexer accumulates the maximal `[0-9.]+` run and returns a number token
exactly when that run parses as a float (`pyFloat?` succeeds: at least one
digit, at most one dot), raising `ValueError` otherwise; and every
character that is not whitespace, alphabetic, numeric, or `'#'` is returned
as a single-character token. -/
theorem gettok_number_or_raw (inp ids : List Char) (nv : ℚ) (c : Char) :
    (isNumChar c = true →
      gettok ⟨inp, some c, ids, nv⟩ =
        match pyFloat? (c :: inp.takeWhile isNumChar) with
        | some v => .ok .number ⟨(getchar (inp.dropWhile isNumChar)).2,
            (getchar (inp.dropWhile isNumChar)).1, ids, v⟩
        | none => .valueError) ∧
    (isWS c = false → isAlphaChar c = false → isNumChar c = false → c ≠ '#' →
      gettok ⟨inp, some c, ids, nv⟩ =
        .ok (.char c) ⟨(getchar inp).2, (getchar inp).1, ids, nv⟩) := by
  constructor
  · intro h
    unfold gettok
    simp only [gettokB]
    rw [skipWS_not_ws (isNumChar_not_ws h)]
    simp only [isNumChar_not_alpha h, h, Bool.false_eq_true, if_false, if_true]
  · intro hws ha hn hh
    unfold gettok
    simp only [gettokB]
    rw [skipWS_not_ws hws]
    simp [ha, hn, hh]

/-- Witness for C3 (amended) at concrete inputs: the invalid accumulation
`"."` raises `ValueError`, the valid accumulation `"1"` yields a number
token, and the unrecognized character `'$'` becomes a single-character
token. -/
theorem gettok_number_or_raw_w :
    gettok ⟨[], some '.', [], 0⟩ = .valueError ∧
    gettok ⟨[], some '1', [], 0⟩ = .ok .number ⟨[], none, [], 1⟩ ∧
    gettok ⟨[], some '$', [], 0⟩ = .ok (.char '$') ⟨[], none, [], 0⟩ := by
  refine ⟨?_, ?_, ?_⟩
  · exact ((gettok_number_or_raw [] [] 0 '.').1 (by decide)).trans rfl
  · exact ((gettok_number_or_raw [] [] 0 '1').1 (by decide)).trans rfl
  · exact ((gettok_number_or_raw [] [] 0 '$').2 (by decide) (by decide) (by decide)
      (by decide)).trans rfl

/-! ### C5, C6 — precedence and associativity -/

/-- C5: with the built-in precedence table, `"1+2*3"` parses to
`BinaryExpression('+', NumberLiteral(1),
BinaryExpression('*', NumberLiteral(2), NumberLiteral(3)))`: the
tighter-binding `*` takes its operands through the recursive
`ParseBinOpRHS` call before `+` combines. -/
theorem parse_one_plus_two_times_three :
    runParseExpression 20 ['1', '+', '2', '*', '3'] =
      .ok (some (.BinaryExpr (.char '+') (.NumberExpr 1)
        (some (.BinaryExpr (.char '*') (.NumberExpr 2) (some (.NumberExpr 3))))))
        ⟨⟨[], none, [], 3⟩, .eof⟩ :=
  rfl

/-- C6: with the built-in precedence table, `"1+2+3"` parses to
`BinaryExpression('+', BinaryExpression('+', NumberLiteral(1),
NumberLiteral(2)), NumberLiteral(3))`: equal-precedence operators associate
to the left through the iterative loop in `ParseBinOpRHS`. -/
theorem parse_one_plus_two_plus_three :
    runParseExpression 20 ['1', '+', '2', '+', '3'] =
      .ok (some (.BinaryExpr (.char '+')
        (.BinaryExpr (.char '+') (.NumberExpr 1) (some (.NumberExpr 2)))
        (some (.NumberExpr 3))))
        ⟨⟨[], none, [], 3⟩, .eof⟩ :=
  rfl

/-! ### C7 — parse errors can be fatal (code bug)

Because `ParseParenExpr` raises `NameError` (see C1), a top-level input such
as `"(1"` kills the whole driver loop: the exception unwinds through
`HandleTopLevelExpression` and `MainLoop` uncaught, so the process dies
before the driver can discard a token and resume, contradicting the claim
that no parse error is fatal. -/

/-- C7: running the full driver on the input `"(1"` terminates the process
with an uncaught `NameError` instead of recovering and reaching the
end-of-input token. -/
theorem mainLoop_fatal_on_paren_error :
    runMain 20 ['(', '1'] = .nameError :=
  rfl

/-! ### C8 — every `BinaryExprAST` operator is in the precedence table

`ParseBinOpRHS(ExprPrec, LHS)` only builds a node when
`GetTokPrecedence() ≥ ExprPrec`, every call site passes `ExprPrec ≥ 0`
(`0` from `ParseExpression`, `TokPrec + 1` from the recursive call), and
`GetTokPrecedence` returns `-1` for non-character tokens, characters absent
from the table, and non-positive entries — so the captured `BinOp` is
always a single character with a positive table entry. -/

/-- A non-negative `GetTokPrecedence` value certifies a legal binary
operator token. -/
theorem GetTokPrecedence_nonneg {t : Tok} (h : 0 ≤ GetTokPrecedence t) : opOK t := by
  cases t with
  | char c =>
    rcases hb : BinopPrecedence c with - | q
    · exfalso
      simp [GetTokPrecedence, hb] at h
    · simp only [GetTokPrecedence, hb, Option.getD_some] at h
      by_cases hq : q ≤ 0
      · rw [if_pos hq] at h
        omega
      · rw [if_neg hq] at h
        exact ⟨c, q, rfl, hb, by omega⟩
  | eof => exact absurd h (by simp [GetTokPrecedence])
  | kDef => exact absurd h (by simp [GetTokPrecedence])
  | kExtern => exact absurd h (by simp [GetTokPrecedence])
  | identifier => exact absurd h (by simp [GetTokPrecedence])
  | number => exact absurd h (by simp [GetTokPrecedence])

/-- Well-formedness of every successful result of the mutually recursive
expression parsers, proved by induction on the fuel. -/
theorem parseExprOK : ∀ f : Nat,
    (∀ s e s', ParsePrimary f s = .ok (some e) s' → ExprOK e) ∧
    (∀ s e s', ParseIdentifierExpr f s = .ok (some e) s' → ExprOK e) ∧
    (∀ n acc s e s', (∀ a ∈ acc, ExprOK a) →
        ParseCallArgs f n acc s = .ok (some e) s' → ExprOK e) ∧
    (∀ s e s', ParseParenExpr f s = .ok (some e) s' → ExprOK e) ∧
    (∀ p lhs s e s', 0 ≤ p → ExprOK lhs →
        ParseBinOpRHS f p lhs s = .ok (some e) s' → ExprOK e) ∧
    (∀ s e s', ParseExpression f s = .ok (some e) s' → ExprOK e) := by
  intro f
  induction f with
  | zero =>
    exact ⟨fun s e s' h => by simp [ParsePrimary] at h,
      fun s e s' h => by simp [ParseIdentifierExpr] at h,
      fun n acc s e s' _ h => by simp [ParseCallArgs] at h,
      fun s e s' h => by simp [ParseParenExpr] at h,
      fun p lhs s e s' _ _ h => by simp [ParseBinOpRHS] at h,
      fun s e s' h => by simp [ParseExpression] at h⟩
  | succ f ih =>
    obtain ⟨ihP, ihI, ihC, ihPar, ihB, ihE⟩ := ih
    refine ⟨?_, ?_, ?_, ?_, ?_, ?_⟩
    · -- ParsePrimary: dispatch.
      intro s e s' h
      rw [ParsePrimary] at h
      by_cases h1 : s.curTok = .identifier
      · rw [if_pos h1] at h
        exact ihI _ _ _ h
      · rw [if_neg h1] at h
        by_cases h2 : s.curTok = .number
        · rw [if_pos h2] at h
          unfold ParseNumberExpr at h
          obtain ⟨t1, s1, hg1, h⟩ := PResult.bind_ok h
          simp only [PResult.ok.injEq, Option.some.injEq] at h
          obtain ⟨he, -⟩ := h
          subst he
          exact ExprOK.num _
        · rw [if_neg h2] at h
          by_cases h3 : s.curTok = .char '('
          · rw [if_pos h3] at h
            exact ihPar _ _ _ h
          · rw [if_neg h3] at h
            simp at h
    · -- ParseIdentifierExpr: variable, empty call, or argument loop.
      intro s e s' h
      rw [ParseIdentifierExpr] at h
      obtain ⟨t1, s1, hg1, h⟩ := PResult.bind_ok h
      by_cases h1 : s1.curTok ≠ .char '('
      · rw [if_pos h1] at h
        simp only [PResult.ok.injEq, Option.some.injEq] at h
        obtain ⟨he, -⟩ := h
        subst he
        exact ExprOK.var _
      · rw [if_neg h1] at h
        obtain ⟨t2, s2, hg2, h⟩ := PResult.bind_ok h
        by_cases h2 : s2.curTok = .char ')'
        · rw [if_pos h2] at h
          obtain ⟨t3, s3, hg3, h⟩ := PResult.bind_ok h
          simp only [PResult.ok.injEq, Option.some.injEq] at h
          obtain ⟨he, -⟩ := h
          subst he
          exact ExprOK.call _ _ (by simp)
        · rw [if_neg h2] at h
          exact ihC _ _ _ _ _ (by simp) h
    · -- ParseCallArgs: each argument comes from ParseExpression.
      intro n acc s e s' hacc h
      rw [ParseCallArgs] at h
      obtain ⟨argOpt, s1, hg1, h⟩ := PResult.bind_ok h
      cases argOpt with
      | none => simp at h
      | some arg =>
        dsimp only at h
        have harg : ExprOK arg := ihE _ _ _ hg1
        have hall : ∀ a ∈ acc ++ [arg], ExprOK a := by
          intro a ha
          rcases List.mem_append.1 ha with ha | ha
          · exact hacc a ha
          · rw [List.mem_singleton.1 ha]
            exact harg
        by_cases h1 : s1.curTok = .char ')'
        · rw [if_pos h1] at h
          obtain ⟨t2, s2, hg2, h⟩ := PResult.bind_ok h
          simp only [PResult.ok.injEq, Option.some.injEq] at h
          obtain ⟨he, -⟩ := h
          subst he
          exact ExprOK.call _ _ hall
        · rw [if_neg h1] at h
          by_cases h2 : s1.curTok ≠ .char ','
          · rw [if_pos h2] at h
            simp at h
          · rw [if_neg h2] at h
            obtain ⟨t2, s2, hg2, h⟩ := PResult.bind_ok h
            exact ihC n (acc ++ [arg]) _ _ _ hall h
    · -- ParseParenExpr never succeeds (NameError).
      intro s e s' h
      rw [ParseParenExpr] at h
      obtain ⟨t1, s1, hg1, h⟩ := PResult.bind_ok h
      obtain ⟨v, s2, hg2, h⟩ := PResult.bind_ok h
      simp at h
    · -- ParseBinOpRHS: the climbing loop.
      intro p lhs s e s' hp hl h
      rw [ParseBinOpRHS] at h
      by_cases hlt : GetTokPrecedence s.curTok < p
      · rw [if_pos hlt] at h
        simp only [PResult.ok.injEq, Option.some.injEq] at h
        obtain ⟨he, -⟩ := h
        subst he
        exact hl
      · rw [if_neg hlt] at h
        have hple : p ≤ GetTokPrecedence s.curTok := not_lt.1 hlt
        have hop : opOK s.curTok := GetTokPrecedence_nonneg (le_trans hp hple)
        obtain ⟨t1, s1, hg1, h⟩ := PResult.bind_ok h
        obtain ⟨rhsOpt, s2, hg2, h⟩ := PResult.bind_ok h
        cases rhsOpt with
        | none => simp at h
        | some rhs =>
          dsimp only at h
          have hr : ExprOK rhs := ihP _ _ _ hg2
          by_cases hnx : GetTokPrecedence s.curTok < GetTokPrecedence s2.curTok
          · rw [if_pos hnx] at h
            obtain ⟨rhsOpt2, s3, hg3, h⟩ := PResult.bind_ok h
            have hbin : ExprOK (.BinaryExpr s.curTok lhs rhsOpt2) := by
              cases rhsOpt2 with
              | none => exact ExprOK.binNone _ _ hop hl
              | some r2 =>
                refine ExprOK.binSome _ _ _ hop hl ?_
                refine ihB _ _ _ _ _ ?_ hr hg3
                omega
            exact ihB _ _ _ _ _ hp hbin h
          · rw [if_neg hnx] at h
            exact ihB _ _ _ _ _ hp (ExprOK.binSome _ _ _ hop hl hr) h
    · -- ParseExpression: primary then ParseBinOpRHS(0, LHS).
      intro s e s' h
      rw [ParseExpression] at h
      obtain ⟨lhsOpt, s1, hg1, h⟩ := PResult.bind_ok h
      cases lhsOpt with
      | none => simp at h
      | some lhs => exact ihB _ _ _ _ _ le_rfl (ihP _ _ _ hg1) h

/-- C8: every expression produced by any parse entry point
(`ParseExpression` directly, a top-level expression's body, a definition's
body, or the primed whole-input expression parse) satisfies `ExprOK`: each
`BinaryExprAST` operator in it is a one-character token whose character has
a positive entry in the precedence table.  Tokens that are not single
characters, or characters absent from the table, can never become a
`BinaryExprAST` operator. -/
theorem binaryExpr_operator_in_table :
    (∀ f s e s', ParseExpression f s = .ok (some e) s' → ExprOK e) ∧
    (∀ f s fn s', ParseTopLevelExpr f s = .ok (some fn) s' → ExprOK fn.body) ∧
    (∀ f s fn s', ParseDefinition f s = .ok (some fn) s' → ExprOK fn.body) ∧
    (∀ f inp e s', runParseExpression f inp = .ok (some e) s' → ExprOK e) := by
  have hE : ∀ f s e s', ParseExpression f s = .ok (some e) s' → ExprOK e :=
    fun f => (parseExprOK f).2.2.2.2.2
  refine ⟨hE, ?_, ?_, ?_⟩
  · intro f s fn s' h
    unfold ParseTopLevelExpr at h
    obtain ⟨eOpt, s1, hg, h⟩ := PResult.bind_ok h
    cases eOpt with
    | none => simp at h
    | some e =>
      dsimp only at h
      simp only [PResult.ok.injEq, Option.some.injEq] at h
      obtain ⟨hfn, -⟩ := h
      subst hfn
      exact hE _ _ _ _ hg
  · intro f s fn s' h
    unfold ParseDefinition at h
    obtain ⟨t1, s1, hg1, h⟩ := PResult.bind_ok h
    obtain ⟨protoOpt, s2, hg2, h⟩ := PResult.bind_ok h
    cases protoOpt with
    | none => simp at h
    | some proto =>
      dsimp only at h
      obtain ⟨eOpt, s3, hg3, h⟩ := PResult.bind_ok h
      cases eOpt with
      | none => simp at h
      | some e =>
        dsimp only at h
        simp only [PResult.ok.injEq, Option.some.injEq] at h
        obtain ⟨hfn, -⟩ := h
        subst hfn
        exact hE _ _ _ _ hg3
  · intro f inp e s' h
    unfold runParseExpression at h
    split at h
    · exact hE _ _ _ _ h
    · simp at h
    · simp at h

/-- Witness for C8 at the concrete parse of `"1+2*3"`: its result tree is
`ExprOK`. -/
theorem binaryExpr_operator_in_table_w :
    ExprOK (.BinaryExpr (.char '+') (.NumberExpr 1)
      (some (.BinaryExpr (.char '*') (.NumberExpr 2) (some (.NumberExpr 3))))) :=
  binaryExpr_operator_in_table.2.2.2 20 ['1', '+', '2', '*', '3'] _ _ rfl

/-! ### C9 — a call with an empty argument list -/

/-- C9: when the current token is an identifier (with payload `name`) and
the character source is positioned so that the next two tokens are `'('`
and `')'`, `ParseIdentifierExpr` consumes both parentheses (plus the
lookahead token after them) and returns `CallExprAST(name, [])` — the
argument loop, and with it `ParseExpression`, is never entered. -/
theorem parseIdentifierExpr_empty_call (f : Nat) (s : PState) (name : List Char)
    (l1 l2 l3 : LexState) (t3 : Tok)
    (_hcur : s.curTok = .identifier) (hname : s.lex.identifierStr = name)
    (h1 : gettok s.lex = .ok (.char '(') l1)
    (h2 : gettok l1 = .ok (.char ')') l2)
    (h3 : gettok l2 = .ok t3 l3) :
    ParseIdentifierExpr (f + 1) s = .ok (some (.CallExpr name [])) ⟨l3, t3⟩ := by
  simp only [ParseIdentifierExpr, getNextToken, h1, h2, h3, PResult.bind, hname]
  simp

/-- Witness for C9 at the state reached after lexing `"f"` from the input
`"f()"`. -/
theorem parseIdentifierExpr_empty_call_w :
    ParseIdentifierExpr 1 ⟨⟨[')'], some '(', ['f'], 0⟩, .identifier⟩ =
      .ok (some (.CallExpr ['f'] [])) ⟨⟨[], none, ['f'], 0⟩, .eof⟩ :=
  parseIdentifierExpr_empty_call 0 _ ['f']
    ⟨[], some ')', ['f'], 0⟩ ⟨[], none, ['f'], 0⟩ ⟨[], none, ['f'], 0⟩ .eof
    rfl rfl rfl rfl rfl

/-! ### C10 — prototypes parsed from source have non-empty names -/

/-- Whenever `gettok` produces an identifier token, the `IdentifierStr`
payload it leaves behind starts with an alphabetic character (so it is
non-empty); proved by induction on the recursion bound because of the
comment-resume recursion. -/
theorem gettokB_identifier_alpha :
    ∀ (b : Nat) (s s' : LexState), gettokB b s = .ok .identifier s' →
      ∃ c r, s'.identifierStr = c :: r ∧ isAlphaChar c = true := by
  intro b
  induction b with
  | zero => intro s s' h; simp [gettokB] at h
  | succ b ih =>
    intro s s' h
    rw [gettokB] at h
    rcases hsw : skipWS s.lastChar s.input with ⟨lc, inp⟩
    rw [hsw] at h
    cases lc with
    | none => simp at h
    | some c =>
      simp only at h
      by_cases ha : isAlphaChar c
      · rw [if_pos ha] at h
        split at h
        · simp at h
        · split at h
          · simp at h
          · injection h with h1 h2
            subst h2
            exact ⟨c, _, rfl, ha⟩
      · rw [if_neg ha] at h
        split at h
        · -- number branch: yields `.number` or `.valueError`, never an identifier
          split at h
          · simp at h
          · simp at h
        · split at h
          · -- comment branch: recursion
            split at h
            · simp at h
            · exact ih _ _ h
          · simp at h

/-- C10: the lexer only ever produces identifier tokens whose payload
begins with an alphabetic character (hence is non-empty), and every
prototype returned by `ParsePrototype` from a state whose identifier
lookahead carries a non-empty payload has a non-empty name; the empty-named
prototype can therefore only arise from `ParseTopLevelExpr`'s anonymous
wrapper. -/
theorem parsePrototype_nonempty_name :
    (∀ (ls ls' : LexState), gettok ls = .ok .identifier ls' →
      ∃ c r, ls'.identifierStr = c :: r ∧ isAlphaChar c = true) ∧
    (∀ (f : Nat) (s : PState) (p : PrototypeAST) (s' : PState),
      (s.curTok = .identifier → s.lex.identifierStr ≠ []) →
      ParsePrototype f s = .ok (some p) s' → p.name ≠ []) := by
  constructor
  · intro ls ls' h
    exact gettokB_identifier_alpha _ ls ls' h
  · intro f s p s' hinv h
    unfold ParsePrototype at h
    by_cases hc : s.curTok = .identifier
    · rw [if_neg (not_not_intro hc)] at h
      obtain ⟨t1, s1, hg1, h⟩ := PResult.bind_ok h
      split at h
      · simp at h
      · obtain ⟨args, s2, hg2, h⟩ := PResult.bind_ok h
        split at h
        · simp at h
        · obtain ⟨t3, s3, hg3, h⟩ := PResult.bind_ok h
          simp only [PResult.ok.injEq, Option.some.injEq] at h
          obtain ⟨hp, -⟩ := h
          subst hp
          simpa using hinv hc
    · rw [if_pos hc] at h
      simp at h

/-- Witness for C10 at the state reached after lexing `"f"` from the input
`"f(x)"`: the returned prototype's name `"f"` is non-empty. -/
theorem parsePrototype_nonempty_name_w :
    (PrototypeAST.mk ['f'] [['x']]).name ≠ [] :=
  parsePrototype_nonempty_name.2 20 ⟨⟨['x', ')'], some '(', ['f'], 0⟩, .identifier⟩
    ⟨['f'], [['x']]⟩ ⟨⟨[], none, ['x'], 0⟩, .eof⟩ (fun _ => by decide) rfl

end Kaleidoscope
